import Mathlib

/-!
Verification of the Financial-Engineering repository (two Jupyter notebooks:
Pricing-Vanilla-Options.ipynb and the up-and-out-call / CVA notebook) against
its natural-language specification.

Every pricer in the source calls the standard normal CDF of scipy
(stats.norm.cdf), a library function external to the repository; the
embedding therefore takes the CDF as an explicit function argument Phi.
All real arithmetic of the Python source (floats) is modelled over the
real numbers.
-/

namespace FinEng

noncomputable section

/-- Helper d1 from the barrier/CVA notebook (cell at lines 33 to 36):
(log(S/K) + (r + sigma^2/2) tau) / (sigma sqrt(tau)). -/
def d1 (S K r sigma tau : ℝ) : ℝ :=
  (Real.log (S / K) + (r + sigma ^ 2 / 2) * tau) / (sigma * Real.sqrt tau)

/-- Helper d2 from the barrier/CVA notebook: d1 - sigma sqrt(tau). -/
def d2 (S K r sigma tau : ℝ) : ℝ :=
  d1 S K r sigma tau - sigma * Real.sqrt tau

/-- Function discounted_value from the barrier/CVA notebook:
exp(-r T) * maximum(S - K, 0). -/
def discounted_value (S K r T : ℝ) : ℝ :=
  Real.exp (-(r * T)) * max (S - K) 0

/-- Function vanillaBS from Pricing-Vanilla-Options.ipynb.  The Python body
computes local d1, d2 and both the call and the put value, returning one of
them according to the boolean flag. -/
def vanillaBS (Phi : ℝ → ℝ) (S K T sig r : ℝ) (call : Bool) : ℝ :=
  let dd1 := (Real.log (S / K) + (r + sig ^ 2 / 2) * T) / (sig * Real.sqrt T)
  let dd2 := dd1 - sig * Real.sqrt T
  let C := S * Phi dd1 - Real.exp (-(r * T)) * K * Phi dd2
  let P := -S * Phi (-dd1) + Real.exp (-(r * T)) * K * Phi (-dd2)
  if call then C else P

/-- The reflection identity Phi(-x) = 1 - Phi(x) satisfied by the standard
normal CDF; the put-call parity claim assumes exactly this identity. -/
def IsReflectedCDF (Phi : ℝ → ℝ) : Prop :=
  ∀ x : ℝ, Phi (-x) = 1 - Phi x

/-- A concrete stand-in CDF used for closed witnesses: the constant one half.
It satisfies the reflection identity Phi(-x) = 1 - Phi(x). -/
def phiHalf : ℝ → ℝ := fun _ => 1 / 2

/-- The identity function on the reals, used as another concrete stand-in for
the CDF argument in closed counterexample evaluations. -/
def idPhi : ℝ → ℝ := fun x => x

/-- Claim C3: put-call parity.  For S0, K, T, sigma positive and any rate r,
the call value minus the put value returned by vanillaBS equals
S0 - K exp(-r T), exactly, given the identity Phi(-x) = 1 - Phi(x). -/
theorem putCallParity (Phi : ℝ → ℝ) (hPhi : IsReflectedCDF Phi)
    (S K T sig r : ℝ) (hS : 0 < S) (hK : 0 < K) (hT : 0 < T) (hsig : 0 < sig) :
    vanillaBS Phi S K T sig r true - vanillaBS Phi S K T sig r false
      = S - K * Real.exp (-(r * T)) := by
  simp only [vanillaBS, if_true, if_false, Bool.false_eq_true]
  rw [hPhi, hPhi]
  ring

/-- Witness for the put-call parity claim at the concrete input
S = K = T = sigma = 1, r = 0, with the constant one-half CDF. -/
theorem putCallParity_witness :
    IsReflectedCDF phiHalf ∧ (0 : ℝ) < 1 ∧
      vanillaBS phiHalf 1 1 1 1 0 true - vanillaBS phiHalf 1 1 1 1 0 false
        = 1 - 1 * Real.exp (-(0 * 1)) := by
  have h : IsReflectedCDF phiHalf := by
    intro x
    simp [phiHalf]
    norm_num
  exact ⟨h, by norm_num,
    putCallParity phiHalf h 1 1 1 1 0 (by norm_num) (by norm_num) (by norm_num)
      (by norm_num)⟩

/-- Claim C4: vanillaBS returns exactly the Black-Scholes values: the call
branch returns S0 Phi(d1) - K exp(-r T) Phi(d2) and the put branch returns
K exp(-r T) Phi(-d2) - S0 Phi(-d1), with d1, d2 as in the claim (which agree
with the helper functions d1, d2 of the other notebook). -/
theorem vanillaBS_closed_form (Phi : ℝ → ℝ) (S K T sig r : ℝ)
    (hS : 0 < S) (hK : 0 < K) (hT : 0 < T) (hsig : 0 < sig) :
    vanillaBS Phi S K T sig r true
        = S * Phi (d1 S K r sig T) - K * Real.exp (-(r * T)) * Phi (d2 S K r sig T)
      ∧ vanillaBS Phi S K T sig r false
        = K * Real.exp (-(r * T)) * Phi (-(d2 S K r sig T))
            - S * Phi (-(d1 S K r sig T)) := by
  constructor
  · simp only [vanillaBS, d1, d2, if_true]
    ring
  · simp only [vanillaBS, d1, d2, if_false, Bool.false_eq_true]
    ring

/-- Witness for the Black-Scholes closed-form claim at the concrete input
S = K = T = sigma = 1, r = 0, with the constant one-half CDF. -/
theorem vanillaBS_closed_form_witness :
    (0 : ℝ) < 1 ∧
      (vanillaBS phiHalf 1 1 1 1 0 true
          = 1 * phiHalf (d1 1 1 0 1 1)
              - 1 * Real.exp (-(0 * 1)) * phiHalf (d2 1 1 0 1 1)
        ∧ vanillaBS phiHalf 1 1 1 1 0 false
          = 1 * Real.exp (-(0 * 1)) * phiHalf (-(d2 1 1 0 1 1))
              - 1 * phiHalf (-(d1 1 1 0 1 1))) :=
  ⟨by norm_num,
    vanillaBS_closed_form phiHalf 1 1 1 1 0 (by norm_num) (by norm_num)
      (by norm_num) (by norm_num)⟩

/-- Last element of a path, modelling the NumPy column access path[:,-1]
(terminal value).  Paths in the source are always nonempty; the empty case
returns a junk value that is never reached. -/
def lastVal : List ℝ → ℝ
  | [] => 0
  | [x] => x
  | _ :: y :: l => lastVal (y :: l)

/-- Running maximum of a path, modelling np.max(path, axis=1).  Paths in the
source are always nonempty; the empty case returns a junk value. -/
def pathMax : List ℝ → ℝ
  | [] => 0
  | [x] => x
  | x :: y :: l => max x (pathMax (y :: l))

/-- Arithmetic mean of a list, modelling np.mean. -/
def mean (xs : List ℝ) : ℝ := xs.sum / xs.length

/-- Per-path discounted payoff of the standalone up-and-out barrier Monte
Carlo pricer (barrier/CVA notebook, cell at lines 90 to 100): the terminal
value ST is zeroed when the running maximum STRICTLY exceeds L
(ST[np.max(path,axis=1)>L] = 0), then discounted_value is applied. -/
def upOutPayoff_MC (K L r T : ℝ) (path : List ℝ) : ℝ :=
  let ST := if pathMax path > L then 0 else lastVal path
  discounted_value ST K r T

/-- Per-path (undiscounted) option value in the CVA cell (lines 182 to 185):
final value = terminal minus strike, negatives clamped to zero, then zeroed
on the paths whose maximum meets or exceeds L
(final_values[max_values >= L] = 0). -/
def finalValue_CVA (K L : ℝ) (path : List ℝ) : ℝ :=
  let f0 := lastVal path - K
  let f1 := if f0 < 0 then 0 else f0
  if pathMax path ≥ L then 0 else f1

/-- Claim C2 (code bug evaluation): on the path [100, 150] that touches the
barrier L = 150 exactly (with K = 100, r = 0, T = 1), the standalone Monte
Carlo barrier pricer pays 50 (it only knocks out when the maximum strictly
exceeds L), while the CVA cell's payoff computation knocks the same path out
to 0; the claim says both force the payoff to zero exactly when the maximum
meets or exceeds L. -/
theorem knockout_rule_mismatch :
    upOutPayoff_MC 100 150 0 1 [100, 150] = 50
      ∧ finalValue_CVA 100 150 [100, 150] = 0 := by
  have hmax : pathMax [100, 150] = (150 : ℝ) := by
    simp [pathMax]
    norm_num
  have hlast : lastVal [100, 150] = (150 : ℝ) := by
    simp [lastVal]
  constructor
  · simp only [upOutPayoff_MC, hmax, hlast, discounted_value]
    norm_num [Real.exp_zero]
  · simp only [finalValue_CVA, hmax, hlast]
    norm_num

/-- Default indicator of the CVA cell: (term_firm_val < debt) as a 0/1
factor. -/
def indicatorDefault (debt : ℝ) (firm : List ℝ) : ℝ :=
  if lastVal firm < debt then 1 else 0

/-- Per-path amount_lost of the CVA cell (line 188):
exp(-r T) (1 - recovery) (firm value at maturity < debt) final_value. -/
def amount_lost (K L r T recovery debt : ℝ) (asset firm : List ℝ) : ℝ :=
  Real.exp (-(r * T)) * (1 - recovery) * indicatorDefault debt firm
    * finalValue_CVA K L asset

/-- CVA estimate of the CVA cell (line 189): mean of amount_lost over the
path ensemble (each element pairs an asset path with its firm path). -/
def cva_est (K L r T recovery debt : ℝ) (ps : List (List ℝ × List ℝ)) : ℝ :=
  mean (ps.map fun q => amount_lost K L r T recovery debt q.1 q.2)

/-- Default-free value of the CVA cell (line 191): mean of the discounted
final values. -/
def DFValue (K L r T : ℝ) (ps : List (List ℝ × List ℝ)) : ℝ :=
  mean (ps.map fun q => finalValue_CVA K L q.1 * Real.exp (-(r * T)))

lemma finalValue_CVA_nonneg (K L : ℝ) (p : List ℝ) :
    0 ≤ finalValue_CVA K L p := by
  simp only [finalValue_CVA]
  split_ifs with h1 h2
  · exact le_refl 0
  · exact le_refl 0
  · linarith

lemma amount_lost_nonneg (K L r T recovery debt : ℝ) (a f : List ℝ)
    (h1 : recovery ≤ 1) : 0 ≤ amount_lost K L r T recovery debt a f := by
  simp only [amount_lost, indicatorDefault]
  have hfv := finalValue_CVA_nonneg K L a
  have he := (Real.exp_pos (-(r * T))).le
  split_ifs
  · have : (0:ℝ) ≤ 1 - recovery := by linarith
    positivity
  · simp

lemma amount_lost_le (K L r T recovery debt : ℝ) (a f : List ℝ)
    (h0 : 0 ≤ recovery) :
    amount_lost K L r T recovery debt a f
      ≤ finalValue_CVA K L a * Real.exp (-(r * T)) := by
  simp only [amount_lost, indicatorDefault]
  have hfv := finalValue_CVA_nonneg K L a
  have he := (Real.exp_pos (-(r * T))).le
  have hstep : Real.exp (-(r * T)) * (1 - recovery)
      * (if lastVal f < debt then (1:ℝ) else 0) * finalValue_CVA K L a
      ≤ Real.exp (-(r * T)) * 1 * 1 * finalValue_CVA K L a := by
    have hind0 : (0:ℝ) ≤ (if lastVal f < debt then (1:ℝ) else 0) := by
      split_ifs <;> norm_num
    have hind1 : (if lastVal f < debt then (1:ℝ) else 0) ≤ 1 := by
      split_ifs <;> norm_num
    gcongr
    · linarith
  calc Real.exp (-(r * T)) * (1 - recovery)
        * (if lastVal f < debt then (1:ℝ) else 0) * finalValue_CVA K L a
      ≤ Real.exp (-(r * T)) * 1 * 1 * finalValue_CVA K L a := hstep
    _ = finalValue_CVA K L a * Real.exp (-(r * T)) := by ring

lemma mean_nonneg_of_forall (xs : List ℝ) (h : ∀ x ∈ xs, 0 ≤ x) :
    0 ≤ mean xs :=
  div_nonneg (List.sum_nonneg h) (Nat.cast_nonneg _)

lemma mean_map_le {α : Type} (l : List α) (f g : α → ℝ)
    (h : ∀ x ∈ l, f x ≤ g x) : mean (l.map f) ≤ mean (l.map g) := by
  simp only [mean, List.length_map]
  exact div_le_div_of_nonneg_right (List.sum_le_sum h) (Nat.cast_nonneg _)

/-- Claim C6: with recovery rate in [0, 1] (the per-path payoffs computed by
the CVA cell are non-negative by construction, see finalValue_CVA_nonneg),
the CVA estimate is non-negative and bounded above by the default-free
value. -/
theorem cva_bounds (K L r T recovery debt : ℝ) (ps : List (List ℝ × List ℝ))
    (h0 : 0 ≤ recovery) (h1 : recovery ≤ 1) :
    0 ≤ cva_est K L r T recovery debt ps
      ∧ cva_est K L r T recovery debt ps ≤ DFValue K L r T ps := by
  constructor
  · apply mean_nonneg_of_forall
    intro x hx
    rcases List.mem_map.mp hx with ⟨q, hq, rfl⟩
    exact amount_lost_nonneg K L r T recovery debt q.1 q.2 h1
  · apply mean_map_le
    intro q hq
    exact amount_lost_le K L r T recovery debt q.1 q.2 h0

/-- Witness for the CVA bounds claim on a concrete one-path ensemble. -/
theorem cva_bounds_witness :
    (0:ℝ) ≤ 0 ∧ (0:ℝ) ≤ 1 ∧
      (0 ≤ cva_est 1 2 0 1 0 0 [([1], [1])]
        ∧ cva_est 1 2 0 1 0 0 [([1], [1])] ≤ DFValue 1 2 0 1 [([1], [1])]) :=
  ⟨le_refl 0, by norm_num, cva_bounds 1 2 0 1 0 0 [([1], [1])] (le_refl 0) (by norm_num)⟩

/-- Function analytical_value_Call_Up_Out from the barrier/CVA notebook
(lines 71 to 80).  The Python body reads the notebook GLOBAL spot S (set in
the parameter cell, line 41) in its first two terms while using the
parameter S0 everywhere else; the embedding therefore takes that captured
global as the explicit first numeric argument Sglob.  Powers with real
exponents ((L/S0)**(2*l)) are modelled by Real.rpow. -/
def analytical_value_Call_Up_Out (Phi : ℝ → ℝ)
    (Sglob S0 K L r sigma T : ℝ) : ℝ :=
  let l := (r + sigma ^ 2 / 2) / sigma ^ 2
  let x1 := Real.log (S0 / L) / (sigma * Real.sqrt T) + l * sigma * Real.sqrt T
  let y1 := Real.log (L / S0) / (sigma * Real.sqrt T) + l * sigma * Real.sqrt T
  let y := Real.log (L ^ 2 / (S0 * K)) / (sigma * Real.sqrt T)
    + l * sigma * Real.sqrt T
  Sglob * Phi (d1 Sglob K r sigma T)
    - K * Real.exp (-(r * T)) * Phi (d2 Sglob K r sigma T)
    - S0 * Phi x1
    + K * Real.exp (-(r * T)) * Phi (x1 - sigma * Real.sqrt T)
    + S0 * (L / S0) ^ (2 * l) * (Phi (-y) - Phi (-y1))
    - K * Real.exp (-(r * T)) * (L / S0) ^ (2 * l - 2)
      * (Phi (-y + sigma * Real.sqrt T) - Phi (-y1 + sigma * Real.sqrt T))

/-- Modelled from the claim: the reflection-principle closed form for the
up-and-out call written ENTIRELY in terms of the parameter S0 (the vanilla
leading terms included), as the spec and the claim state it. -/
def upAndOutCallPrice_claim (Phi : ℝ → ℝ) (S0 K L r sigma T : ℝ) : ℝ :=
  let l := (r + sigma ^ 2 / 2) / sigma ^ 2
  let x1 := Real.log (S0 / L) / (sigma * Real.sqrt T) + l * sigma * Real.sqrt T
  let y1 := Real.log (L / S0) / (sigma * Real.sqrt T) + l * sigma * Real.sqrt T
  let y := Real.log (L ^ 2 / (S0 * K)) / (sigma * Real.sqrt T)
    + l * sigma * Real.sqrt T
  S0 * Phi (d1 S0 K r sigma T)
    - K * Real.exp (-(r * T)) * Phi (d2 S0 K r sigma T)
    - S0 * Phi x1
    + K * Real.exp (-(r * T)) * Phi (x1 - sigma * Real.sqrt T)
    + S0 * (L / S0) ^ (2 * l) * (Phi (-y) - Phi (-y1))
    - K * Real.exp (-(r * T)) * (L / S0) ^ (2 * l - 2)
      * (Phi (-y + sigma * Real.sqrt T) - Phi (-y1 + sigma * Real.sqrt T))

/-- Claim C1 (code bug evaluation): at the valid input S0 = 50, K = 100,
L = 150, r = 0, sigma = 1, T = 1 (with the constant one-half CDF), the code
returns 25 when the notebook global spot is 100, but 0 when the global spot
is 50, while the claimed S0-only closed form gives 0: the code result reads
the global S in its vanilla leading terms and does not equal the claimed
formula stated in terms of S0 alone. -/
theorem uoCall_reads_global_spot :
    analytical_value_Call_Up_Out phiHalf 100 50 100 150 0 1 1 = 25
      ∧ analytical_value_Call_Up_Out phiHalf 50 50 100 150 0 1 1 = 0
      ∧ upAndOutCallPrice_claim phiHalf 50 100 150 0 1 1 = 0 := by
  refine ⟨?_, ?_, ?_⟩ <;>
    · simp only [analytical_value_Call_Up_Out, upAndOutCallPrice_claim, phiHalf]
      norm_num [Real.exp_zero]

/-- Claim C9 (counterexample): at the degenerate input with barrier at the
spot, L = S0 = 1 (and K = 1, r = 0, sigma = 1, T = 1, global spot 1, with
the constant one-half CDF), the up-and-out pricer does not fail: it returns
the numeric value 0.  The Python function performs no parameter check at
all, so no InvalidParameter error is possible. -/
theorem uoCall_no_validation :
    analytical_value_Call_Up_Out phiHalf 1 1 1 1 0 1 1 = 0 := by
  simp only [analytical_value_Call_Up_Out, phiHalf]
  norm_num [Real.exp_zero]

/-- Claim C9 (amended): the pricer performs no validation for L ≤ S0; it
evaluates the closed form and returns a number.  In particular at the fully
degenerate point L = S0 = K (with the notebook global spot also equal to
S0), all six CDF terms cancel pairwise and the returned number is exactly 0,
for every CDF function Phi. -/
theorem uoCall_degenerate_returns_zero (Phi : ℝ → ℝ) (S0 r sig T : ℝ)
    (hS0 : 0 < S0) (hsig : 0 < sig) (hT : 0 < T) :
    analytical_value_Call_Up_Out Phi S0 S0 S0 S0 r sig T = 0 := by
  have hsqrt : 0 < Real.sqrt T := Real.sqrt_pos.mpr hT
  have hTT : Real.sqrt T * Real.sqrt T = T := Real.mul_self_sqrt hT.le
  have hdiv : S0 / S0 = 1 := div_self (ne_of_gt hS0)
  have hsq : S0 ^ 2 / (S0 * S0) = 1 := by
    rw [sq]
    exact div_self (by positivity)
  have hd1 : d1 S0 S0 r sig T
      = (r + sig ^ 2 / 2) / sig ^ 2 * sig * Real.sqrt T := by
    simp only [d1, hdiv, Real.log_one, zero_add]
    rw [div_eq_iff (by positivity)]
    field_simp
    linear_combination (-((r * 2 + sig ^ 2) * 2 * sig ^ 2)) * hTT
  have hd2 : d2 S0 S0 r sig T
      = (r + sig ^ 2 / 2) / sig ^ 2 * sig * Real.sqrt T
          - sig * Real.sqrt T := by
    rw [d2, hd1]
  simp only [analytical_value_Call_Up_Out, hd1, hd2, hdiv, hsq, Real.log_one,
    zero_div, zero_add, Real.one_rpow]
  ring

/-- Witness for the amended C9 statement at S0 = 2, r = 0, sigma = 1,
T = 1. -/
theorem uoCall_degenerate_returns_zero_witness :
    (0:ℝ) < 2 ∧ (0:ℝ) < 1 ∧
      analytical_value_Call_Up_Out phiHalf 2 2 2 2 0 1 1 = 0 :=
  ⟨by norm_num, by norm_num,
    uoCall_degenerate_returns_zero phiHalf 2 0 1 1 (by norm_num) (by norm_num)
      (by norm_num)⟩

/-- Global C from the barrier/CVA notebook (line 134): the plain vanilla
Black-Scholes call value at the notebook globals. -/
def C_global (Phi : ℝ → ℝ) (S K r sigma T : ℝ) : ℝ :=
  S * Phi (d1 S K r sigma T) - K * Real.exp (-(r * T)) * Phi (d2 S K r sigma T)

/-- Lines 193 to 194 of the CVA cell: default_prob uses the UNDERLYING
volatility sigma (sigma in the parameter cell, the volatility driving the
asset paths on line 179), not the firm volatility sigma2 that drives the
firm-value paths on line 180, and uncorr_cva multiplies it by (1-recovery)
and the vanilla call value C. -/
def uncorr_cva (Phi : ℝ → ℝ) (S K T sigma r V debt recovery : ℝ) : ℝ :=
  (1 - recovery) * Phi (-(d2 V debt r sigma T)) * C_global Phi S K r sigma T

/-- Modelled from the claim: the analytical uncorrelated CVA with the
default probability computed from the FIRM volatility sigma2, times the
vanilla call price of the underlying. -/
def uncorrelatedCVA_spec (Phi : ℝ → ℝ)
    (S K T sigma sigma2 r V debt recovery : ℝ) : ℝ :=
  (1 - recovery) * Phi (-(d2 V debt r sigma2 T))
    * vanillaBS Phi S K T sigma r true

/-- Claim C7 (code bug evaluation): with the identity function as the CDF
stand-in, S = K = 1, T = 1, underlying volatility sigma = 1, firm volatility
sigma2 = 2, r = 0, V = debt = 1, recovery = 0, the code computes 1/2 (its
default probability uses the underlying volatility sigma) while the claimed
formula with the firm volatility sigma2 gives 1. -/
theorem uncorrCVA_uses_asset_vol :
    uncorr_cva idPhi 1 1 1 1 0 1 1 0 = 1 / 2
      ∧ uncorrelatedCVA_spec idPhi 1 1 1 1 2 0 1 1 0 = 1 := by
  constructor
  · simp only [uncorr_cva, C_global, d1, d2, idPhi]
    norm_num [Real.exp_zero, Real.sqrt_one, Real.log_one]
  · simp only [uncorrelatedCVA_spec, vanillaBS, d1, d2, idPhi, if_true]
    norm_num [Real.exp_zero, Real.sqrt_one, Real.log_one]

/-- One backward-induction sweep of the binomial tree (the inner loop of
vanillaTree over i at a fixed time step j): node i at step j gets
disc * (p * value(i, j+1) + (1-p) * value(i+1, j+1)). -/
def backstep (disc p : ℝ) (v : ℕ → ℝ) : ℕ → ℝ :=
  fun i => disc * (p * v i + (1 - p) * v (i + 1))

/-- Iterated backward induction: k sweeps of backstep applied to the
terminal column, giving the option values k time steps before maturity. -/
def backIter (disc p : ℝ) (term : ℕ → ℝ) : ℕ → ℕ → ℝ
  | 0 => term
  | k + 1 => backstep disc p (backIter disc p term k)

/-- Function vanillaTree from Pricing-Vanilla-Options.ipynb (lines 108 to
134).  The Python function immediately OVERWRITES its argument d with 1/u
(so the argument is dead); dt = T/N, u = exp(sig sqrt(dt)), p =
(exp(r dt) - d)/(u - d); terminal payoffs maximum(0, tree - K) resp.
maximum(0, K - tree) on node prices S u^(N-i) d^i; the returned price is
the root value after N backward sweeps. -/
def vanillaTree (S K T : ℝ) (N : ℕ) (sig r d : ℝ) (c : Bool) : ℝ :=
  let dt := T / N
  let u := Real.exp (sig * Real.sqrt dt)
  let d := 1 / u
  let p := (Real.exp (r * dt) - d) / (u - d)
  let term : ℕ → ℝ := fun i =>
    if c then max 0 (S * u ^ (N - i) * d ^ i - K)
    else max 0 (K - S * u ^ (N - i) * d ^ i)
  backIter (Real.exp (-(r * dt))) p term N 0

/-- Node values of the spec algorithm, by direct recursion on the number of
steps remaining to maturity: with 0 steps remaining the node pays the
terminal payoff; otherwise node value = disc (p up + (1 - p) down). -/
def specNodeVal (payoff : ℕ → ℝ) (disc p : ℝ) : ℕ → ℕ → ℝ
  | 0, i => payoff i
  | k + 1, i => disc * (p * specNodeVal payoff disc p k i
      + (1 - p) * specNodeVal payoff disc p k (i + 1))

/-- Modelled from the spec: the lattice pricer algorithm exactly as 4.3
words it.  Per-step factors u = exp(sigma sqrt(T/N)), d = 1/u, p =
(exp(r T/N) - d)/(u - d); node prices S0 u^(j-i) d^i; terminal payoff
max(S - K, 0) for calls and max(K - S, 0) for puts; backward induction
node value = exp(-r T/N)(p up + (1 - p) down); the price is the root
value. -/
def treePrice_spec (S K T : ℝ) (N : ℕ) (sig r : ℝ) (kind : Bool) : ℝ :=
  let u := Real.exp (sig * Real.sqrt (T / N))
  let dFac := 1 / Real.exp (sig * Real.sqrt (T / N))
  let p := (Real.exp (r * (T / N)) - dFac) / (u - dFac)
  let payoff : ℕ → ℝ := fun i =>
    if kind then max (S * u ^ (N - i) * dFac ^ i - K) 0
    else max (K - S * u ^ (N - i) * dFac ^ i) 0
  specNodeVal payoff (Real.exp (-(r * (T / N)))) p N 0

lemma backIter_eq_specNodeVal (disc p : ℝ) (term : ℕ → ℝ) :
    ∀ k i, backIter disc p term k i = specNodeVal term disc p k i := by
  intro k
  induction k with
  | zero => intro i; rfl
  | succ n ih =>
      intro i
      simp only [backIter, backstep, specNodeVal, ih]

/-- Claim C5: for N ≥ 1, vanillaTree computes exactly the spec algorithm:
same u, d, p, same terminal payoffs on the node prices S u^(j-i) d^i, same
discounted backward induction, same root value. -/
theorem vanillaTree_follows_spec (S K T : ℝ) (N : ℕ) (sig r d : ℝ)
    (c : Bool) (hN : 1 ≤ N) :
    vanillaTree S K T N sig r d c = treePrice_spec S K T N sig r c := by
  simp only [vanillaTree, treePrice_spec, backIter_eq_specNodeVal]
  congr 1
  funext i
  cases c
  · simp [max_comm]
  · simp [max_comm]

/-- Witness for the lattice refinement claim at N = 1 and concrete
parameters. -/
theorem vanillaTree_follows_spec_witness :
    1 ≤ 1 ∧ vanillaTree 100 100 1 1 (1/5) (1/25) 7 true
      = treePrice_spec 100 100 1 1 (1/5) (1/25) true :=
  ⟨le_refl 1, vanillaTree_follows_spec 100 100 1 1 (1/5) (1/25) 7 true (le_refl 1)⟩

/-- Claim C10: the result of vanillaTree is independent of the
caller-supplied argument d, which the function overwrites with 1/u before
any use: two calls differing only in d return the same price. -/
theorem vanillaTree_ignores_d (S K T : ℝ) (N : ℕ) (sig r d dAlt : ℝ)
    (c : Bool) :
    vanillaTree S K T N sig r d c = vanillaTree S K T N sig r dAlt c := rfl

/-- Cumulative products with running accumulator, modelling np.cumprod along
a row. -/
def cumprodFrom (a : ℝ) : List ℝ → List ℝ
  | [] => []
  | x :: l => (a * x) :: cumprodFrom (a * x) l

/-- Cumulative products of a list (np.cumprod). -/
def cumprod (l : List ℝ) : List ℝ := cumprodFrom 1 l

/-- One exact lognormal step factor exp((r - sig^2/2) dt + sig sqrt(dt) z),
as used by every simulation loop of the repository (vanillaMC, the barrier
Monte Carlo cell, and both processes of the CVA cell). -/
def gbmFactor (r sig dt z : ℝ) : ℝ :=
  Real.exp ((r - sig ^ 2 / 2) * dt + sig * Real.sqrt dt * z)

/-- Number of simulated steps in vanillaMC: the code hardcodes dt = 0.1 and
draws int(1/dt) = 10 standard normal columns per path. -/
def vanillaMC_numSteps : ℕ := 10

/-- Simulated path of vanillaMC (Pricing-Vanilla-Options.ipynb, lines 174 to
179) for one row zs of standard normal draws: the code hardcodes dt = 0.1
(regardless of the maturity argument T) and computes
path = cumprod(exp((r - sig^2/2) dt + sig sqrt(dt) z)) * S. -/
def vanillaMC_path (S r sig : ℝ) (zs : List ℝ) : List ℝ :=
  (cumprod (zs.map (gbmFactor r sig (1 / 10)))).map (fun x => x * S)

/-- Terminal simulated value of vanillaMC: path[:,-1]. -/
def vanillaMC_ST (S r sig : ℝ) (zs : List ℝ) : ℝ :=
  lastVal (vanillaMC_path S r sig zs)

/-- Function vanillaMC from Pricing-Vanilla-Options.ipynb: discounted mean
terminal payoff over the rows of draws (N rows of int(1/0.1) = 10 draws
each); the maturity T is used ONLY in the discount factor, not in the
simulation. -/
def vanillaMC (S K T sig r : ℝ) (c : Bool) (draws : List (List ℝ)) : ℝ :=
  if c then
    Real.exp (-(r * T)) * mean (draws.map fun zs => max (vanillaMC_ST S r sig zs - K) 0)
  else
    Real.exp (-(r * T)) * mean (draws.map fun zs => max (K - vanillaMC_ST S r sig zs) 0)

/-- Modelled from the spec (4.4): terminal value of a simulated path with
dt = T/numSteps and the exact lognormal step, so that the simulated horizon
is numSteps * dt = T. -/
def simulateTerminal_spec (S r sig T : ℝ) (numSteps : ℕ) (zs : List ℝ) : ℝ :=
  S * (zs.map (gbmFactor r sig (T / numSteps))).prod

lemma lastVal_cumprodFrom (a x : ℝ) (l : List ℝ) :
    lastVal (cumprodFrom a (x :: l)) = a * (x :: l).prod := by
  induction l generalizing a x with
  | nil => simp [cumprodFrom, lastVal]
  | cons y ys ih =>
      have h1 : lastVal (cumprodFrom a (x :: y :: ys))
          = lastVal (cumprodFrom (a * x) (y :: ys)) := rfl
      rw [h1, ih]
      simp only [List.prod_cons]
      ring

/-- Claim C8 (code bug evaluation): with all ten standard normal draws equal
to zero, S = 1, r = 1, sig = 1, the vanillaMC path generator reaches the
terminal value exp(1/2) (ten hardcoded steps of dt = 1/10: simulated horizon
exactly 1), while the claimed dt = T/numSteps discretization at maturity
T = 2 reaches exp(1): the simulated horizon is fixed at 1 and does not equal
the maturity passed by the caller. -/
theorem vanillaMC_fixed_horizon :
    vanillaMC_ST 1 1 1 (List.replicate vanillaMC_numSteps 0) = Real.exp (1 / 2)
      ∧ simulateTerminal_spec 1 1 1 2 vanillaMC_numSteps
          (List.replicate vanillaMC_numSteps 0) = Real.exp 1
      ∧ Real.exp (1 / 2) ≠ Real.exp 1 := by
  have hfac1 : gbmFactor 1 1 (1 / 10) 0 = Real.exp (1 / 20) := by
    simp only [gbmFactor, mul_zero, add_zero]
    norm_num
  have hfac2 : gbmFactor 1 1 ((2 : ℝ) / 10) 0 = Real.exp (1 / 10) := by
    simp only [gbmFactor, mul_zero, add_zero]
    norm_num
  refine ⟨?_, ?_, ?_⟩
  · simp only [vanillaMC_ST, vanillaMC_path, vanillaMC_numSteps, cumprod,
      List.map_replicate, hfac1, mul_one]
    rw [show List.map (fun x : ℝ => x) = (id : List ℝ → List ℝ) by
      funext l; simp]
    simp only [id]
    rw [show (List.replicate 10 (Real.exp (1 / 20)) : List ℝ)
      = Real.exp (1 / 20) :: List.replicate 9 (Real.exp (1 / 20)) from rfl]
    rw [lastVal_cumprodFrom, one_mul, List.prod_cons, List.prod_replicate,
      ← pow_succ']
    rw [← Real.exp_nat_mul]
    norm_num
  · simp only [simulateTerminal_spec, vanillaMC_numSteps, List.map_replicate,
      Nat.cast_ofNat, hfac2, one_mul, List.prod_replicate]
    rw [← Real.exp_nat_mul]
    norm_num
  · intro h
    have := Real.exp_injective h
    norm_num at this

end

end FinEng
